import Mathlib

/-
Verification development for the instana2bhom event pipeline.

The Python sources (events_db_vr2.py, lib/commonutility.py) are shallowly
embedded below.  Conventions of the embedding:

- JSON documents (Python dicts/lists/scalars produced by json.loads) are the
  inductive type JValue; Python dict insertion order is kept by representing
  dicts as association lists.  JSON numbers are modelled as integers (the
  source feed uses integer severities; float equality subtleties are out of
  scope).
- A Python function that can raise an exception which its callers do not
  catch locally is modelled as Except Unit.  A raised-and-caught exception
  that the source converts to a value (for example the bare except in
  get_nested_value) is folded into the returned value.
- Python string operations (split, strip, upper, startswith, replace) are
  re-implemented over List Char with fuel so that every definition reduces
  inside the kernel; they follow the CPython semantics for nonempty
  separators.
- External I/O (HTTP calls, the database connection) is passed in as explicit
  data: the downstream response of the k-th POST of a run is an oracle value,
  and the database table instana_events is a list of rows.
-/

-- ---------------- Python string primitives ----------------

/-- Digits of a natural number, most significant first; fuel-driven so that it
reduces in the kernel (fuel n+1 always suffices). -/
def natDigits : Nat → Nat → List Char
  | 0, _ => []
  | Nat.succ f, n =>
      if n < 10 then [Char.ofNat (n + 48)]
      else natDigits f (n / 10) ++ [Char.ofNat (n % 10 + 48)]

/-- Decimal rendering of a natural number. -/
def natToStr (n : Nat) : String := String.mk (natDigits (n + 1) n)

/-- Decimal rendering of an integer, as Python str(int). -/
def intToStr (n : Int) : String :=
  if n < 0 then "-" ++ natToStr n.natAbs else natToStr n.natAbs

/-- Core of Python str.split for a nonempty separator: leftmost-first,
non-overlapping occurrences; fuel bounds the recursion by the input length. -/
def listSplitFuel (sep : List Char) : Nat → List Char → List Char → List (List Char)
  | _, [], acc => [acc.reverse]
  | 0, rest, acc => [acc.reverse ++ rest]
  | Nat.succ f, c :: rest, acc =>
      if sep.isPrefixOf (c :: rest) then
        acc.reverse :: listSplitFuel sep f ((c :: rest).drop sep.length) []
      else
        listSplitFuel sep f rest (c :: acc)

/-- Python s.split(sep) for a nonempty separator (the source never splits on
an empty separator). -/
def pySplit (s sep : String) : List String :=
  if sep.data.isEmpty then [s]
  else (listSplitFuel sep.data s.data.length s.data []).map String.mk

/-- Python s.startswith(pre). -/
def pyStartsWith (s pre : String) : Bool := pre.data.isPrefixOf s.data

/-- ASCII whitespace recognised by Python str.strip. -/
def isPySpace (c : Char) : Bool :=
  decide (c = ' ') || decide (c = '\t') || decide (c = '\n') ||
  decide (c = '\x0d') || decide (c = '\x0b') || decide (c = '\x0c')

/-- Python s.strip() restricted to ASCII whitespace. -/
def pyStrip (s : String) : String :=
  String.mk (((s.data.dropWhile isPySpace).reverse.dropWhile isPySpace).reverse)

/-- ASCII uppercasing of one character, as Python str.upper on ASCII input. -/
def pyUpperChar (c : Char) : Char :=
  if 97 ≤ c.toNat ∧ c.toNat ≤ 122 then Char.ofNat (c.toNat - 32) else c

/-- Python s.upper() restricted to ASCII. -/
def pyUpper (s : String) : String := String.mk (s.data.map pyUpperChar)

/-- Python s.replace(c, empty string): removes every occurrence of the
character. -/
def pyRemoveChar (s : String) (c : Char) : String :=
  String.mk (s.data.filter (fun d => !(d == c)))

/-- Digit accumulator for pyInt. -/
def digitsToNatAux : List Char → Nat → Option Nat
  | [], acc => some acc
  | c :: cs, acc =>
      if c.isDigit then digitsToNatAux cs (acc * 10 + (c.toNat - 48)) else none

/-- Python int(s): optional surrounding whitespace, optional sign, decimal
digits; anything else raises ValueError, modelled as none (digit-group
underscores are not modelled, the source never uses them). -/
def pyInt (s : String) : Option Int :=
  match (pyStrip s).data with
  | [] => none
  | '-' :: ds =>
      (match ds with
       | [] => none
       | _ => (digitsToNatAux ds 0).map (fun n => -(n : Int)))
  | '+' :: ds =>
      (match ds with
       | [] => none
       | _ => (digitsToNatAux ds 0).map (fun n => (n : Int)))
  | ds => (digitsToNatAux ds 0).map (fun n => (n : Int))

-- ---------------- JSON documents ----------------

/-- JSON documents as produced by json.loads: dicts keep insertion order as
association lists. -/
inductive JValue where
  | null : JValue
  | bool : Bool → JValue
  | num : Int → JValue
  | str : String → JValue
  | arr : List JValue → JValue
  | obj : List (String × JValue) → JValue

/-- First-match association-list lookup (dict keys are unique in every dict
the source builds, so this is Python dict lookup). -/
def lookupKV : List (String × JValue) → String → Option JValue
  | [], _ => none
  | (k1, v) :: rest, k => if k1 = k then some v else lookupKV rest k

/-- Python repr of a JSON value (str gets single quotes; container element
layout follows CPython). Only used through pyStr inside f-string formatting. -/
def pyRepr : JValue → String
  | .null => "None"
  | .bool true => "True"
  | .bool false => "False"
  | .num n => intToStr n
  | .str s => "\x27" ++ s ++ "\x27"
  | .arr l => "[" ++ String.intercalate ", " (l.attach.map (fun x => pyRepr x.1)) ++ "]"
  | .obj m => "\x7b" ++ String.intercalate ", "
      (m.attach.map (fun x => "\x27" ++ x.1.1 ++ "\x27: " ++ pyRepr x.1.2)) ++ "\x7d"
decreasing_by
  · have h := List.sizeOf_lt_of_mem x.2
    simp only [JValue.arr.sizeOf_spec]
    omega
  · obtain ⟨⟨k, v⟩, hx⟩ := x
    have h := List.sizeOf_lt_of_mem hx
    simp only [Prod.mk.sizeOf_spec] at h
    simp only [JValue.obj.sizeOf_spec]
    omega

/-- Python str(x) where x is a JSON value or None (the f-string in
priority_from_severity). -/
def pyStr : Option JValue → String
  | none => "None"
  | some (.str s) => s
  | some v => pyRepr v

-- ---------------- Mapping resolver (events_db_vr2.py lines 57-118) ----------------

/-- Python val[k] for a string key k (events_db_vr2.py line 97 and line 95
first subscript).  A dict yields its entry or raises KeyError; every other
type raises TypeError.  none models a raised exception (caught by the bare
except of get_nested_value); a stored JSON null is returned as a value. -/
def pySubscr (v : JValue) (k : String) : Option JValue :=
  match v with
  | .obj m => lookupKV m k
  | _ => none

/-- Python val[i] for an integer index (events_db_vr2.py line 95 second
subscript): sequence indexing with negative-index wraparound; IndexError,
KeyError (dict with int key) and TypeError are all caught by the caller and
modelled as none. -/
def pyIndexInt (v : JValue) (i : Int) : Option JValue :=
  match v with
  | .arr l =>
      let j : Int := if i < 0 then i + l.length else i
      if 0 ≤ j then l.get? j.toNat else none
  | .str s =>
      let j : Int := if i < 0 then i + s.data.length else i
      if 0 ≤ j then (s.data.get? j.toNat).map (fun c => .str (String.mk [c])) else none
  | _ => none

/-- One loop iteration of get_nested_value (events_db_vr2.py lines 92-97) on
one dot-separated part.  Except-error models the uncaught ValueError raised
by int(idx) on a non-numeric index or by unpacking a part with more than one
opening bracket; ok none models a KeyError/IndexError/TypeError that the
functions bare except turns into a returned None. -/
def getStep (val : JValue) (part : String) : Except Unit (Option JValue) :=
  match pySplit part "[" with
  | [p] => .ok (pySubscr val p)
  | [key, idx] =>
      match pySubscr val key with
      | none => .ok none
      | some v1 =>
          match pyInt idx with
          | none => .error ()
          | some i => .ok (pyIndexInt v1 i)
  | _ => .error ()

/-- The traversal loop of get_nested_value over the parts of the path; a
JSON null reached at the end is returned as Python None (json.loads maps
null to None), matching the is-not-None test of the fallback chain. -/
def getNestedLoop (val : JValue) : List String → Except Unit (Option JValue)
  | [] => .ok (match val with | .null => none | v => some v)
  | p :: ps =>
      match getStep val p with
      | .error e => .error e
      | .ok none => .ok none
      | .ok (some v) => getNestedLoop v ps

/-- get_nested_value (events_db_vr2.py lines 88-100): strips every closing
bracket, splits the path on dots and walks the document; lookup failures are
masked to None, but int() on a malformed bracket index raises ValueError,
which the except clause on line 99 does not catch. -/
def get_nested_value (data : JValue) (key_path : String) : Except Unit (Option JValue) :=
  getNestedLoop data (pySplit (pyRemoveChar key_path ']') ".")

/-- The fallback-chain generator of resolve_bhom_mapping (events_db_vr2.py
line 109): first candidate path whose lookup is not None wins, otherwise the
empty string. -/
def evalChain (event_data : JValue) : List String → Except Unit JValue
  | [] => .ok (.str "")
  | k :: ks =>
      match get_nested_value event_data (pyStrip k) with
      | .error e => .error e
      | .ok (some v) => .ok v
      | .ok none => evalChain event_data ks

/-- severity_level (events_db_vr2.py lines 58-59): CRITICAL exactly when the
value equals the integer 5. -/
def severity_level (sev : Option JValue) : String :=
  match sev with
  | some (.num n) => if n = 5 then "CRITICAL" else "WARNING"
  | _ => "WARNING"

/-- uppercase_state (events_db_vr2.py lines 61-62): state.upper() raises
AttributeError unless the value is a string. -/
def uppercase_state : Option JValue → Except Unit String
  | some (.str s) => .ok (pyUpper s)
  | _ => .error ()

/-- priority_from_severity (events_db_vr2.py lines 64-65): the f-string
PRIORITY_ followed by str(sev); total for every input. -/
def priority_from_severity (sev : Option JValue) : String :=
  "PRIORITY_" ++ pyStr sev

/-- CUSTOM_FUNCTIONS (events_db_vr2.py lines 67-71) as a name-indexed
registry; each transform takes the raw looked-up value (possibly None) and
may raise. -/
def CUSTOM_FUNCTIONS (name : String) : Option (Option JValue → Except Unit JValue) :=
  if name = "severity_level" then some (fun x => .ok (.str (severity_level x)))
  else if name = "uppercase_state" then some (fun x => (uppercase_state x).map JValue.str)
  else if name = "priority_from_severity" then some (fun x => .ok (.str (priority_from_severity x)))
  else none

/-- bhom_mapping_reverse_lookup (events_db_vr2.py lines 79-86): fixed table
with identity default. -/
def bhom_mapping_reverse_lookup (field : String) : String :=
  if field = "severity" then "severity"
  else if field = "status" then "state"
  else if field = "priority" then "severity"
  else if field = "class_slots.pn_severity" then "severity"
  else field

/-- Python dict assignment d[k] = v on an association list: update in place
keeping position, or append preserving insertion order. -/
def setKey (m : List (String × JValue)) (k : String) (v : JValue) : List (String × JValue) :=
  if m.any (fun p => decide (p.1 = k)) then
    m.map (fun p => if p.1 = k then (k, v) else p)
  else m ++ [(k, v)]

/-- Recursive core of insert_nested_key over the already-split key list:
setdefault walks/creates intermediate dicts; reaching an existing non-dict
intermediate raises (TypeError or AttributeError), modelled as Except-error. -/
def insertNestedGo : List (String × JValue) → List String → JValue → Except Unit (List (String × JValue))
  | _, [], _ => .error ()
  | d, [k], value => .ok (setKey d k value)
  | d, k :: rest, value =>
      match lookupKV d k with
      | some (.obj m) =>
          match insertNestedGo m rest value with
          | .error e => .error e
          | .ok m2 => .ok (setKey d k (.obj m2))
      | some _ => .error ()
      | none =>
          match insertNestedGo [] rest value with
          | .error e => .error e
          | .ok m2 => .ok (setKey d k (.obj m2))

/-- insert_nested_key (events_db_vr2.py lines 73-77): splits the dotted key
and writes the value, creating intermediate dicts via setdefault. -/
def insert_nested_key (d : List (String × JValue)) (dotted_key : String) (value : JValue) :
    Except Unit (List (String × JValue)) :=
  insertNestedGo d (pySplit dotted_key ".") value

/-- One rule evaluation of resolve_bhom_mapping (events_db_vr2.py lines
105-116): the static / event_data / func dispatch in source order, with the
final unrecognized-rule default of the empty string.  For func rules the
source first looks up the reverse-mapped field (line 113, a lookup that can
raise ValueError) and then applies the registered transform, defaulting to a
constant-empty-string lambda for unknown names (line 114). -/
def resolveRule (event_data : JValue) (bhom_field rule : String) : Except Unit JValue :=
  if pyStartsWith rule "static:" then .ok (.str ((pySplit rule "static:").getD 1 ""))
  else if pyStartsWith rule "event_data:" then
    evalChain event_data (pySplit ((pySplit rule "event_data:").getD 1 "") "|")
  else if pyStartsWith rule "func:" then
    match get_nested_value event_data (bhom_mapping_reverse_lookup bhom_field) with
    | .error e => .error e
    | .ok raw_value =>
        match CUSTOM_FUNCTIONS (pyStrip ((pySplit rule "func:").getD 1 "")) with
        | some f => f raw_value
        | none => .ok (.str "")
  else .ok (.str "")

/-- resolve_bhom_mapping (events_db_vr2.py lines 102-118): folds the mapping
rules in order into the output payload.  The source wraps the payload in a
one-element list which its only caller immediately unwraps with [0]; the
model returns the payload itself.  Except-error models an exception escaping
the resolver (it has no exception handler of its own). -/
def resolve_bhom_mapping (event_data : JValue) (mapping_config : List (String × String)) :
    Except Unit (List (String × JValue)) :=
  mapping_config.foldlM
    (fun payload fr =>
      match resolveRule event_data fr.1 fr.2 with
      | .error e => .error e
      | .ok value => insert_nested_key payload fr.1 value)
    []

-- ---------------- Credential refresh (lib/commonutility.py lines 74-133) ----------------

/-- String-keyed lookup in a flat JSON object of strings (the persisted token
file only ever holds string fields). -/
def lookupStr : List (String × String) → String → Option String
  | [], _ => none
  | (k1, v) :: rest, k => if k1 = k then some v else lookupStr rest k

/-- Modelling convention for datetimes: a timestamp is an integer number of
seconds; strftime of the fixed format writes its decimal encoding and
strptime is the partial inverse (a non-parsing string raises ValueError,
modelled as none).  The claims only depend on differences of timestamps, not
on the calendar layout of the format string. -/
def encodeTime (t : Int) : String := intToStr t

/-- Python strptime of the fixed token-file format under the encoding above. -/
def strptimeInt (s : String) : Option Int := pyInt s

/-- create-new-refresh-token (lib/commonutility.py lines 100-133): POSTs the
access keys, takes field json_web_token of the response, raises if the call
failed or the token is missing, and persists a file with fields time and
refresh_token (lines 119-122).  refresh_response is the outcome of the POST:
Except-error for a transport/HTTP failure, ok none for a response without a
json_web_token field, ok some for a returned token.  The result pairs the
returned token with the written file content. -/
def _create_new_refresh_token (now : Int) (refresh_response : Except Unit (Option String)) :
    Except Unit (String × List (String × String)) :=
  match refresh_response with
  | .error _ => .error ()
  | .ok none => .error ()
  | .ok (some new_token) =>
      .ok (new_token, [("time", encodeTime now), ("refresh_token", new_token)])

/-- Wrapper giving the file state after a regeneration path of
get_valid_refresh_token. -/
def regenToken (now : Int) (refresh_response : Except Unit (Option String)) :
    Except Unit (String × Option (List (String × String))) :=
  match _create_new_refresh_token now refresh_response with
  | .error e => .error e
  | .ok (tok, f) => .ok (tok, some f)

/-- get_valid_refresh_token (lib/commonutility.py lines 74-98).  file is the
persisted token file (none when absent or empty), now the current time.
Returns the token together with the resulting file state.  A missing file,
an unparsable time field (ValueError), an age above 10 minutes (600
seconds), or a missing json_web_token field (KeyError) all regenerate; the
except clause on line 94 catches exactly those reading errors, and an error
from the regeneration itself is re-raised as RuntimeError (line 98). -/
def get_valid_refresh_token (file : Option (List (String × String))) (now : Int)
    (refresh_response : Except Unit (Option String)) :
    Except Unit (String × Option (List (String × String))) :=
  match file with
  | none => regenToken now refresh_response
  | some data =>
      match strptimeInt ((lookupStr data "time").getD "") with
      | none => regenToken now refresh_response
      | some last_time =>
          if 600 < now - last_time then regenToken now refresh_response
          else
            match lookupStr data "json_web_token" with
            | some tok => .ok (tok, some data)
            | none => regenToken now refresh_response

-- ---------------- Event store and ingestion (events_db_vr2.py lines 40-171) ----------------

/-- Lifecycle status of a stored event (the status TEXT column; the source
only ever writes these three values). -/
inductive Status where
  | RECEIVED : Status
  | CREATED : Status
  | FAILED : Status
deriving DecidableEq, Repr

/-- One row of the instana_events table (events_db_vr2.py lines 43-52).
event_id is a TEXT column and may be NULL; updated_at/created_at are not
modelled (no claim depends on them). -/
structure EventRecord where
  event_id : Option String
  event_json : JValue
  status : Status

/-- The event-id value stored for a fetched event: event.get("eventId")
(events_db_vr2.py line 153).  A missing or null id becomes SQL NULL; the
source feed uses string ids, so only string values are modelled as stored
text. -/
def event_id_of (ev : JValue) : Option String :=
  match ev with
  | .obj m =>
      match lookupKV m "eventId" with
      | some (.str s) => some s
      | _ => none
  | _ => none

/-- One INSERT ... ON CONFLICT (event_id) DO NOTHING (events_db_vr2.py lines
157-165): appends a RECEIVED row unless a row with the same non-NULL
event_id exists; NULL ids never conflict under a SQL UNIQUE constraint. -/
def upsert_event (db : List EventRecord) (eid : Option String) (ejson : JValue) :
    List EventRecord :=
  match eid with
  | none => db ++ [⟨none, ejson, .RECEIVED⟩]
  | some e =>
      if db.any (fun r => decide (r.event_id = some e)) then db
      else db ++ [⟨some e, ejson, .RECEIVED⟩]

/-- The open-state filter comprehension (events_db_vr2.py line 143):
ev["state"] == "open" per event; a missing state key or a non-dict event
raises (KeyError/TypeError), which the enclosing try of
fetch_instana_events catches, aborting the whole ingestion. -/
def state_is_open (ev : JValue) : Except Unit Bool :=
  match ev with
  | .obj m =>
      match lookupKV m "state" with
      | some v => .ok (match v with | .str s => decide (s = "open") | _ => false)
      | none => .error ()
  | _ => .error ()

/-- The list comprehension building open_events, with its exception
behaviour: the first event that raises aborts the whole list. -/
def filter_open : List JValue → Except Unit (List JValue)
  | [] => .ok []
  | ev :: evs =>
      match state_is_open ev with
      | .error e => .error e
      | .ok b =>
          match filter_open evs with
          | .error e => .error e
          | .ok rest => .ok (if b then ev :: rest else rest)

/-- fetch_instana_events (events_db_vr2.py lines 121-171) restricted to its
store effect: fetch_result is the outcome of the source-API GET (Except-error
for any transport/HTTP/JSON failure).  Every exception inside the try is
caught and logged (line 170), leaving the store unchanged; otherwise the
open events are upserted in order with initial status RECEIVED. -/
def fetch_instana_events (db : List EventRecord) (fetch_result : Except Unit (List JValue)) :
    List EventRecord :=
  match fetch_result with
  | .error _ => db
  | .ok events =>
      match filter_open events with
      | .error _ => db
      | .ok open_events =>
          open_events.foldl (fun acc ev => upsert_event acc (event_id_of ev) ev) db

-- ---------------- Batch pipeline (events_db_vr2.py lines 174-231) ----------------

/-- Outcome of one requests.post to the BHOM endpoint: exn is a raised
transport exception, response carries the HTTP status code and the outcome
of response.json() (Except-error when the body is not JSON). -/
inductive SubmitResult where
  | exn : SubmitResult
  | response (status_code : Nat) (body : Except Unit JValue) : SubmitResult

/-- Python len() on a JSON value: defined for sequences, strings and dicts,
TypeError otherwise. -/
def pyLen : JValue → Except Unit Nat
  | .arr l => .ok l.length
  | .str s => .ok s.data.length
  | .obj m => .ok m.length
  | _ => .error ()

/-- resource_count: len(resp_json.get("resourceId", [])) from
events_db_vr2.py line 198; .get on a non-dict body raises AttributeError,
len on a non-sized field raises TypeError; both are caught by the batch
except clause. -/
def resource_count (resp_json : JValue) : Except Unit Nat :=
  match resp_json with
  | .obj m =>
      match lookupKV m "resourceId" with
      | some v => pyLen v
      | none => .ok 0
  | _ => .error ()

/-- SQL equality of two event_id TEXT values: NULL compares false against
everything, as in WHERE event_id = %s. -/
def sqlEq (a b : Option String) : Bool :=
  match a, b with
  | some x, some y => decide (x = y)
  | _, _ => false

/-- One executemany of UPDATE instana_events SET status=... WHERE
event_id=%s over the batch ids (events_db_vr2.py lines 202-215): every row
whose id SQL-equals one of the ids gets the new status. -/
def mark_status (db : List EventRecord) (ids : List (Option String)) (st : Status) :
    List EventRecord :=
  db.map (fun r => if ids.any (fun i => sqlEq r.event_id i) then ⟨r.event_id, r.event_json, st⟩ else r)

/-- Left-to-right effectful map for Except, with the exception semantics of a
Python list comprehension: the first raised exception propagates. -/
def mapExcept (f : α → Except Unit β) : List α → Except Unit (List β)
  | [] => .ok []
  | x :: xs =>
      match f x with
      | .error e => .error e
      | .ok y =>
          match mapExcept f xs with
          | .error e => .error e
          | .ok ys => .ok (y :: ys)

/-- One iteration of the batch loop (events_db_vr2.py lines 189-217).
First the batch payload is resolved OUTSIDE the try block (line 191), so a
resolver exception escapes as Except-error with no status written for this
batch; then the POST outcome is reconciled inside try/except: a 200 response
whose created-resource count equals the batch size marks every event
CREATED, any other 200 response, any non-200 status, and any raised
exception (transport, response.json, len) marks every event FAILED. -/
def process_one_batch (bhom_config : List (String × String)) (resp : SubmitResult)
    (db : List EventRecord) (batch : List (Option String × JValue)) :
    Except Unit (List EventRecord) :=
  match mapExcept (fun p => resolve_bhom_mapping p.2 bhom_config) batch with
  | .error e => .error e
  | .ok _batch_payload =>
      let event_ids := batch.map Prod.fst
      match resp with
      | .exn => .ok (mark_status db event_ids .FAILED)
      | .response code body =>
          if code = 200 then
            match body with
            | .error _ => .ok (mark_status db event_ids .FAILED)
            | .ok resp_json =>
                match resource_count resp_json with
                | .error _ => .ok (mark_status db event_ids .FAILED)
                | .ok n =>
                    if n ≠ batch.length then .ok (mark_status db event_ids .FAILED)
                    else .ok (mark_status db event_ids .CREATED)
          else .ok (mark_status db event_ids .FAILED)

/-- Fuel-driven batch slicing; with fuel at least the list length this is
the sequence events[i:i+batch_size] for i in range(0, len(events),
batch_size).  batch_size 0 would raise in Python and is never used. -/
def chunksFuel (n : Nat) : Nat → List α → List (List α)
  | _, [] => []
  | 0, l => [l]
  | Nat.succ f, l =>
      if n = 0 then [] else l.take n :: chunksFuel n f (l.drop n)

/-- The batch decomposition of the processing loop. -/
def chunks (n : Nat) (l : List α) : List (List α) := chunksFuel n l.length l

/-- Observable outcome of one processing run: the committed store snapshots
in batch order (conn.commit in the finally clause, line 217), the final
store state, and whether an exception propagated out of the function. -/
structure RunState where
  commits : List (List EventRecord)
  final : List EventRecord
  aborted : Bool

/-- The for-loop of process_events_in_batches over the prepared batches: the
k-th POST outcome is resp k; a resolver exception aborts the run with the
store as last committed (no commit is reached for the failing batch);
otherwise the batch outcome is committed before the next batch starts. -/
def run_batches (cfg : List (String × String)) :
    (Nat → SubmitResult) → List EventRecord → List (List (Option String × JValue)) → RunState
  | _, db, [] => ⟨[], db, false⟩
  | resp, db, b :: bs =>
      match process_one_batch cfg (resp 0) db b with
      | .error _ => ⟨[], db, true⟩
      | .ok db2 =>
          let r := run_batches cfg (fun n => resp (n + 1)) db2 bs
          ⟨db2 :: r.commits, r.final, r.aborted⟩

/-- process_events_in_batches (events_db_vr2.py lines 174-220): token is the
outcome of get_valid_refresh_token (line 180, called before any batch work);
if it raised, the exception propagates with no status written.  The token
value itself only feeds the Authorization header and does not influence the
modelled store behaviour. -/
def process_events_in_batches (cfg : List (String × String)) (token : Except Unit String)
    (resp : Nat → SubmitResult) (db : List EventRecord)
    (events : List (Option String × JValue)) (batch_size : Nat) : RunState :=
  match token with
  | .error _ => ⟨[], db, true⟩
  | .ok _ => run_batches cfg resp db (chunks batch_size events)

/-- Pending-status test of the selection query (status in RECEIVED, FAILED). -/
def isPending : Status → Bool
  | .RECEIVED => true
  | .FAILED => true
  | .CREATED => false

/-- The SELECT of process_all_events (events_db_vr2.py line 225): rows
(event_id, event_json) of every record whose status is RECEIVED or FAILED,
in table order. -/
def select_pending (db : List EventRecord) : List (Option String × JValue) :=
  (db.filter (fun r => isPending r.status)).map (fun r => (r.event_id, r.event_json))

/-- process_all_events (events_db_vr2.py lines 222-231): selects the pending
rows and, when nonempty, processes them in batches of 8500. -/
def process_all_events (cfg : List (String × String)) (token : Except Unit String)
    (resp : Nat → SubmitResult) (db : List EventRecord) : RunState :=
  match select_pending db with
  | [] => ⟨[], db, false⟩
  | p :: ps => process_events_in_batches cfg token resp db (p :: ps) 8500

-- ---------------- Observers used by the verification statements ----------------

/-- Default row used by positional (getD) store accesses in statements; its
NULL id SQL-matches nothing, so out-of-range accesses are inert. -/
def dummyRec : EventRecord := ⟨none, JValue.null, Status.RECEIVED⟩

/-- A POST outcome that the batch loop treats as a failure before reaching
the count comparison: a raised transport exception, a non-200 status, or an
unparsable response body. -/
def submitFailed : SubmitResult → Bool
  | .exn => true
  | .response _ (.error _) => true
  | .response code (.ok _) => decide (code ≠ 200)

/-- The status the batch loop writes for a whole batch, as a function of the
POST outcome and the batch size (the branch structure of events_db_vr2.py
lines 195-215). -/
def batchStatus (r : SubmitResult) (len : Nat) : Status :=
  match r with
  | .exn => .FAILED
  | .response code body =>
      if code = 200 then
        match body with
        | .error _ => .FAILED
        | .ok resp_json =>
            match resource_count resp_json with
            | .error _ => .FAILED
            | .ok n => if n ≠ len then .FAILED else .CREATED
      else .FAILED

/-- Syntactic well-formedness of one path segment: at most one opening
bracket, and a bracket index that int() accepts.  This is the source-path
grammar of the specification (dot-separated segments with an optional
bracketed integer index); a segment outside it makes int() raise ValueError
inside get_nested_value. -/
def wfSegment (part : String) : Bool :=
  match pySplit part "[" with
  | [_] => true
  | [_, idx] => (pyInt idx).isSome
  | _ => false

/-- Well-formedness of a whole source path after bracket stripping. -/
def wfPath (p : String) : Bool := (pySplit (pyRemoveChar p ']') ".").all wfSegment

/-- Specification-side reading of one fallback candidate: the looked-up
value when it is present and non-null. -/
def lookedUp (data : JValue) (k : String) : Option JValue :=
  match get_nested_value data (pyStrip k) with
  | .ok (some v) => some v
  | _ => none

/-- Specification-side value of a fallback chain: the first candidate that
is present and non-null, otherwise the empty string. -/
def chainSpecValue (data : JValue) (keys : List String) : JValue :=
  (keys.findSome? (lookedUp data)).getD (.str "")

/-- Lookup of a dotted target path inside a resolved payload (walks nested
objects). -/
def payloadGet : List (String × JValue) → List String → Option JValue
  | _, [] => none
  | m, [k] => lookupKV m k
  | m, k :: rest =>
      match lookupKV m k with
      | some (.obj m2) => payloadGet m2 rest
      | _ => none

/-- Number of store rows carrying a given non-NULL event id. -/
def countId (db : List EventRecord) (e : String) : Nat :=
  db.countP (fun r => decide (r.event_id = some e))

-- ---------------- Lemmas ----------------

theorem mapExcept_ok {α β : Type} {f : α → Except Unit β} {l : List α}
    (h : ∀ p ∈ l, ∃ out, f p = .ok out) : ∃ outs, mapExcept f l = .ok outs := by
  induction l with
  | nil => exact ⟨[], rfl⟩
  | cons x xs ih =>
      obtain ⟨y, hy⟩ := h x (List.mem_cons_self x xs)
      obtain ⟨ys, hys⟩ := ih (fun p hp => h p (List.mem_cons_of_mem _ hp))
      exact ⟨y :: ys, by simp [mapExcept, hy, hys]⟩

theorem mapExcept_err {α β : Type} {f : α → Except Unit β} {l : List α}
    (h : ∃ p ∈ l, f p = .error ()) : mapExcept f l = .error () := by
  induction l with
  | nil => simp at h
  | cons x xs ih =>
      rcases h with ⟨p, hp, hperr⟩
      rcases List.mem_cons.1 hp with rfl | hmem
      · simp [mapExcept, hperr]
      · cases hfx : f x with
        | error e => cases e; simp [mapExcept, hfx]
        | ok y => simp [mapExcept, hfx, ih ⟨p, hmem, hperr⟩]

theorem eventRecord_eta (r : EventRecord) :
    (⟨r.event_id, r.event_json, r.status⟩ : EventRecord) = r := rfl

theorem sqlEq_none_left (b : Option String) : sqlEq none b = false := by
  cases b <;> rfl

theorem sqlEq_symm (a b : Option String) : sqlEq a b = sqlEq b a := by
  cases a <;> cases b <;> simp [sqlEq, eq_comm]

theorem sqlEq_some_refl (e : String) : sqlEq (some e) (some e) = true := by
  simp [sqlEq]

theorem mark_status_length (db : List EventRecord) (ids : List (Option String)) (st : Status) :
    (mark_status db ids st).length = db.length := by
  simp [mark_status]

theorem mark_status_getD (db : List EventRecord) (ids : List (Option String)) (st : Status)
    (i : Nat) :
    (mark_status db ids st).getD i dummyRec =
      (if ids.any (fun x => sqlEq ((db.getD i dummyRec).event_id) x) then
        ⟨(db.getD i dummyRec).event_id, (db.getD i dummyRec).event_json, st⟩
      else db.getD i dummyRec) := by
  induction db generalizing i with
  | nil =>
      have hnone : ∀ x, sqlEq (dummyRec.event_id) x = false := fun x => sqlEq_none_left x
      simp [mark_status, List.getD, hnone]
  | cons r rest ih =>
      cases i with
      | zero => simp [mark_status, List.getD]
      | succ n =>
          have := ih n
          simpa [mark_status, List.getD] using this

theorem mark_status_mem (db : List EventRecord) (ids : List (Option String)) (st : Status) :
    ∀ r ∈ mark_status db ids st,
      ids.any (fun x => sqlEq r.event_id x) = true → r.status = st := by
  intro r hr hmatch
  simp only [mark_status, List.mem_map] at hr
  obtain ⟨r0, hr0, heq⟩ := hr
  by_cases h : ids.any (fun x => sqlEq r0.event_id x) = true
  · rw [if_pos h] at heq
    rw [← heq]
  · rw [if_neg h] at heq
    subst heq
    exact absurd hmatch h

theorem batchStatus_of_failed (r : SubmitResult) (len : Nat) (h : submitFailed r = true) :
    batchStatus r len = .FAILED := by
  cases r with
  | exn => rfl
  | response code body =>
      cases body with
      | error e => by_cases hc : code = 200 <;> simp [batchStatus, hc]
      | ok j =>
          simp only [submitFailed, decide_eq_true_eq] at h
          simp [batchStatus, h]

theorem batchStatus_of_matching (j : JValue) (n len : Nat)
    (hrc : resource_count j = .ok n) (hn : n = len) :
    batchStatus (.response 200 (.ok j)) len = .CREATED := by
  simp [batchStatus, hrc, hn]

theorem batchStatus_of_non200 (code : Nat) (body : Except Unit JValue) (len : Nat)
    (h : code ≠ 200) : batchStatus (.response code body) len = .FAILED := by
  simp [batchStatus, h]

theorem process_one_batch_ok (cfg : List (String × String)) (r : SubmitResult)
    (db : List EventRecord) (batch : List (Option String × JValue))
    (hres : ∀ p ∈ batch, ∃ out, resolve_bhom_mapping p.2 cfg = .ok out) :
    process_one_batch cfg r db batch =
      .ok (mark_status db (batch.map Prod.fst) (batchStatus r batch.length)) := by
  obtain ⟨outs, houts⟩ := mapExcept_ok hres
  unfold process_one_batch batchStatus
  rw [houts]
  cases r with
  | exn => rfl
  | response code body =>
      by_cases hc : code = 200
      · subst hc
        cases body with
        | error e => simp
        | ok j =>
            cases hrc : resource_count j with
            | error e => simp [hrc]
            | ok n => by_cases hn : n ≠ batch.length <;> simp [hrc, hn]
      · simp [hc]

theorem process_one_batch_shape (cfg : List (String × String)) (r : SubmitResult)
    (db db2 : List EventRecord) (batch : List (Option String × JValue))
    (h : process_one_batch cfg r db batch = .ok db2) :
    ∃ st, db2 = mark_status db (batch.map Prod.fst) st := by
  unfold process_one_batch at h
  split at h
  · cases h
  · split at h
    · cases h
      exact ⟨_, rfl⟩
    · split at h
      · split at h
        · cases h
          exact ⟨_, rfl⟩
        · split at h
          · cases h
            exact ⟨_, rfl⟩
          · split at h
            · cases h
              exact ⟨_, rfl⟩
            · cases h
              exact ⟨_, rfl⟩
      · cases h
        exact ⟨_, rfl⟩

theorem run_batches_ok (cfg : List (String × String)) :
    ∀ (bs : List (List (Option String × JValue))) (resp : Nat → SubmitResult)
      (db : List EventRecord),
      (∀ b ∈ bs, ∀ p ∈ b, ∃ out, resolve_bhom_mapping p.2 cfg = .ok out) →
      (run_batches cfg resp db bs).aborted = false ∧
      (run_batches cfg resp db bs).commits.length = bs.length := by
  intro bs
  induction bs with
  | nil => intro resp db _; exact ⟨rfl, rfl⟩
  | cons b bs ih =>
      intro resp db h
      have hb := h b (List.mem_cons_self b bs)
      have hpb := process_one_batch_ok cfg (resp 0) db b hb
      have htail := ih (fun n => resp (n + 1))
        (mark_status db (b.map Prod.fst) (batchStatus (resp 0) b.length))
        (fun b2 hb2 => h b2 (List.mem_cons_of_mem _ hb2))
      simp only [run_batches, hpb]
      exact ⟨htail.1, by simp [htail.2]⟩

theorem run_batches_final_length (cfg : List (String × String)) :
    ∀ (bs : List (List (Option String × JValue))) (resp : Nat → SubmitResult)
      (db : List EventRecord),
      (run_batches cfg resp db bs).final.length = db.length := by
  intro bs
  induction bs with
  | nil => intro resp db; rfl
  | cons b bs ih =>
      intro resp db
      rcases hpb : process_one_batch cfg (resp 0) db b with e | db2
      · simp [run_batches, hpb]
      · obtain ⟨st, hst⟩ := process_one_batch_shape _ _ _ _ _ hpb
        simp only [run_batches, hpb]
        rw [ih (fun n => resp (n + 1)) db2, hst, mark_status_length]

theorem run_batches_chain (cfg : List (String × String)) :
    ∀ (bs : List (List (Option String × JValue))) (resp : Nat → SubmitResult)
      (db : List EventRecord) (k : Nat),
      (∀ b ∈ bs, ∀ p ∈ b, ∃ out, resolve_bhom_mapping p.2 cfg = .ok out) →
      k < bs.length →
      (run_batches cfg resp db bs).commits.getD k [] =
        mark_status (if k = 0 then db else (run_batches cfg resp db bs).commits.getD (k - 1) [])
          ((bs.getD k []).map Prod.fst)
          (batchStatus (resp k) (bs.getD k []).length) := by
  intro bs
  induction bs with
  | nil => intro resp db k _ hk; simp at hk
  | cons b bs ih =>
      intro resp db k h hk
      have hb := h b (List.mem_cons_self b bs)
      have hpb := process_one_batch_ok cfg (resp 0) db b hb
      simp only [run_batches, hpb]
      cases k with
      | zero => simp
      | succ k2 =>
          have htail := ih (fun n => resp (n + 1))
            (mark_status db (b.map Prod.fst) (batchStatus (resp 0) b.length)) k2
            (fun b2 hb2 => h b2 (List.mem_cons_of_mem _ hb2)) (by simpa using hk)
          cases k2 with
          | zero => simpa using htail
          | succ k3 => simpa using htail

theorem run_batches_untouch (cfg : List (String × String)) :
    ∀ (bs : List (List (Option String × JValue))) (resp : Nat → SubmitResult)
      (db : List EventRecord) (i : Nat),
      (∀ b ∈ bs, ∀ id ∈ b.map Prod.fst, sqlEq ((db.getD i dummyRec).event_id) id = false) →
      (run_batches cfg resp db bs).final.getD i dummyRec = db.getD i dummyRec := by
  intro bs
  induction bs with
  | nil => intro resp db i _; rfl
  | cons b bs ih =>
      intro resp db i h
      rcases hpb : process_one_batch cfg (resp 0) db b with e | db2
      · simp [run_batches, hpb]
      · obtain ⟨st, hst⟩ := process_one_batch_shape _ _ _ _ _ hpb
        have hany : ((b.map Prod.fst).any (fun x => sqlEq ((db.getD i dummyRec).event_id) x)) = false := by
          rw [List.any_eq_false]
          intro x hx
          rw [h b (List.mem_cons_self b bs) x hx]
          simp
        have hgd : db2.getD i dummyRec = db.getD i dummyRec := by
          rw [hst, mark_status_getD, hany]
          rfl
        have hcond : ∀ b2 ∈ bs, ∀ id ∈ b2.map Prod.fst,
            sqlEq ((db2.getD i dummyRec).event_id) id = false := by
          intro b2 hb2 id hid
          rw [hgd]
          exact h b2 (List.mem_cons_of_mem _ hb2) id hid
        simp only [run_batches, hpb]
        rw [ih (fun n => resp (n + 1)) db2 i hcond, hgd]

theorem run_batches_keep (cfg : List (String × String)) :
    ∀ (bs : List (List (Option String × JValue))) (resp : Nat → SubmitResult)
      (db : List EventRecord) (i : Nat),
      (∀ b ∈ bs, ∀ p ∈ b, ∃ out, resolve_bhom_mapping p.2 cfg = .ok out) →
      (∀ k, k < bs.length → ∃ j n, resp k = .response 200 (.ok j) ∧
        resource_count j = .ok n ∧ n = (bs.getD k []).length) →
      (db.getD i dummyRec).status = .CREATED →
      (run_batches cfg resp db bs).final.getD i dummyRec = db.getD i dummyRec := by
  intro bs
  induction bs with
  | nil => intro resp db i _ _ _; rfl
  | cons b bs ih =>
      intro resp db i h hsucc hstat
      have hb := h b (List.mem_cons_self b bs)
      have hpb := process_one_batch_ok cfg (resp 0) db b hb
      obtain ⟨j, n, hj, hrc, hn⟩ := hsucc 0 (Nat.succ_pos _)
      have hst : batchStatus (resp 0) b.length = .CREATED := by
        rw [hj]
        exact batchStatus_of_matching j n b.length hrc (by simpa using hn)
      have hgd : (mark_status db (b.map Prod.fst) (batchStatus (resp 0) b.length)).getD i dummyRec
          = db.getD i dummyRec := by
        rw [mark_status_getD, hst]
        split
        · rw [← hstat]
        · rfl
      have hsucc2 : ∀ k, k < bs.length → ∃ j2 n2, (fun m => resp (m + 1)) k = .response 200 (.ok j2) ∧
          resource_count j2 = .ok n2 ∧ n2 = (bs.getD k []).length := by
        intro k hk
        obtain ⟨j2, n2, hj2, hrc2, hn2⟩ := hsucc (k + 1) (by simpa using hk)
        exact ⟨j2, n2, hj2, hrc2, by simpa using hn2⟩
      simp only [run_batches, hpb]
      rw [ih (fun m => resp (m + 1)) _ i (fun b2 hb2 => h b2 (List.mem_cons_of_mem _ hb2)) hsucc2
        (by rw [hgd]; exact hstat), hgd]

theorem run_batches_created (cfg : List (String × String)) :
    ∀ (bs : List (List (Option String × JValue))) (resp : Nat → SubmitResult)
      (db : List EventRecord) (i : Nat) (e : String),
      (∀ b ∈ bs, ∀ p ∈ b, ∃ out, resolve_bhom_mapping p.2 cfg = .ok out) →
      (∀ k, k < bs.length → ∃ j n, resp k = .response 200 (.ok j) ∧
        resource_count j = .ok n ∧ n = (bs.getD k []).length) →
      (db.getD i dummyRec).event_id = some e →
      (∃ b ∈ bs, (b.map Prod.fst).any (fun x => sqlEq (some e) x) = true) →
      (run_batches cfg resp db bs).final.getD i dummyRec =
        ⟨some e, (db.getD i dummyRec).event_json, .CREATED⟩ := by
  intro bs
  induction bs with
  | nil => intro resp db i e _ _ _ hmatch; simp at hmatch
  | cons b bs ih =>
      intro resp db i e h hsucc hid hmatch
      have hb := h b (List.mem_cons_self b bs)
      have hpb := process_one_batch_ok cfg (resp 0) db b hb
      obtain ⟨j, n, hj, hrc, hn⟩ := hsucc 0 (Nat.succ_pos _)
      have hst : batchStatus (resp 0) b.length = .CREATED := by
        rw [hj]
        exact batchStatus_of_matching j n b.length hrc (by simpa using hn)
      have hsucc2 : ∀ k, k < bs.length → ∃ j2 n2, (fun m => resp (m + 1)) k = .response 200 (.ok j2) ∧
          resource_count j2 = .ok n2 ∧ n2 = (bs.getD k []).length := by
        intro k hk
        obtain ⟨j2, n2, hj2, hrc2, hn2⟩ := hsucc (k + 1) (by simpa using hk)
        exact ⟨j2, n2, hj2, hrc2, by simpa using hn2⟩
      have htail := fun b2 hb2 => h b2 (List.mem_cons_of_mem _ hb2)
      simp only [run_batches, hpb]
      cases hm : (b.map Prod.fst).any (fun x => sqlEq (some e) x) with
      | true =>
          have hgd : (mark_status db (b.map Prod.fst) (batchStatus (resp 0) b.length)).getD i dummyRec
              = ⟨some e, (db.getD i dummyRec).event_json, .CREATED⟩ := by
            rw [mark_status_getD, hst, hid, hm]
            simp [hid]
          rw [run_batches_keep cfg bs (fun m => resp (m + 1)) _ i htail hsucc2 (by rw [hgd]), hgd]
      | false =>
          have hgd : (mark_status db (b.map Prod.fst) (batchStatus (resp 0) b.length)).getD i dummyRec
              = db.getD i dummyRec := by
            rw [mark_status_getD, hid, hm]
            rfl
          have hmatch2 : ∃ b2 ∈ bs, (b2.map Prod.fst).any (fun x => sqlEq (some e) x) = true := by
            obtain ⟨b2, hb2, hb2m⟩ := hmatch
            rcases List.mem_cons.1 hb2 with rfl | hmem
            · rw [hb2m] at hm
              cases hm
            · exact ⟨b2, hmem, hb2m⟩
          rw [ih (fun m => resp (m + 1)) _ i e htail hsucc2 (by rw [hgd]; exact hid) hmatch2, hgd]

theorem chunksFuel_mem {α : Type} (n : Nat) :
    ∀ (f : Nat) (l : List α) (b : List α), b ∈ chunksFuel n f l → ∀ p ∈ b, p ∈ l := by
  intro f
  induction f with
  | zero =>
      intro l b hb p hp
      cases l with
      | nil => simp [chunksFuel] at hb
      | cons x xs =>
          simp [chunksFuel] at hb
          subst hb
          exact hp
  | succ f ih =>
      intro l b hb p hp
      cases l with
      | nil => simp [chunksFuel] at hb
      | cons x xs =>
          by_cases hn : n = 0
          · simp [chunksFuel, hn] at hb
          · simp only [chunksFuel, if_neg hn] at hb
            rcases List.mem_cons.1 hb with rfl | hmem
            · exact List.take_subset n _ hp
            · exact List.drop_subset n _ (ih _ b hmem p hp)

theorem chunks_mem {α : Type} (n : Nat) (l : List α) (b : List α) (hb : b ∈ chunks n l) :
    ∀ p ∈ b, p ∈ l := chunksFuel_mem n l.length l b hb

theorem chunksFuel_exists {α : Type} (n : Nat) (hn : n ≠ 0) :
    ∀ (f : Nat) (l : List α) (x : α), l.length ≤ f → x ∈ l →
      ∃ b ∈ chunksFuel n f l, x ∈ b := by
  intro f
  induction f with
  | zero =>
      intro l x hl hx
      cases l with
      | nil => simp at hx
      | cons y ys => simp at hl
  | succ f ih =>
      intro l x hl hx
      cases l with
      | nil => simp at hx
      | cons y ys =>
          simp only [chunksFuel, if_neg hn]
          by_cases hxt : x ∈ (y :: ys).take n
          · exact ⟨(y :: ys).take n, List.mem_cons_self _ _, hxt⟩
          · have hxd : x ∈ (y :: ys).drop n := by
              have hall : x ∈ (y :: ys).take n ++ (y :: ys).drop n := by
                rw [List.take_append_drop]
                exact hx
              rcases List.mem_append.1 hall with h1 | h2
              · exact absurd h1 hxt
              · exact h2
            have hlen : ((y :: ys).drop n).length ≤ f := by
              rw [List.length_drop]
              have hn2 : 1 ≤ n := Nat.one_le_iff_ne_zero.2 hn
              have hl2 : (y :: ys).length ≤ f + 1 := hl
              omega
            obtain ⟨b, hb, hxb⟩ := ih _ x hlen hxd
            exact ⟨b, List.mem_cons_of_mem _ hb, hxb⟩

theorem chunks_exists {α : Type} (n : Nat) (hn : n ≠ 0) (l : List α) (x : α) (hx : x ∈ l) :
    ∃ b ∈ chunks n l, x ∈ b := chunksFuel_exists n hn l.length l x (le_refl _) hx

theorem chunks_single {α : Type} (n : Nat) (l : List α) (h1 : l ≠ []) (h2 : l.length ≤ n) :
    chunks n l = [l] := by
  cases l with
  | nil => exact absurd rfl h1
  | cons x xs =>
      have hn : n ≠ 0 := by
        intro h
        rw [h] at h2
        simp at h2
      unfold chunks
      simp only [List.length_cons, chunksFuel, if_neg hn]
      rw [List.take_of_length_le h2, List.drop_eq_nil_of_le h2]
      simp [chunksFuel]

theorem select_pending_mem (db : List EventRecord) (r : EventRecord) (hr : r ∈ db)
    (hp : isPending r.status = true) : (r.event_id, r.event_json) ∈ select_pending db :=
  List.mem_map.2 ⟨r, List.mem_filter.2 ⟨hr, hp⟩, rfl⟩

theorem select_pending_mem_rev (db : List EventRecord) (q : Option String × JValue)
    (hq : q ∈ select_pending db) :
    ∃ r, r ∈ db ∧ isPending r.status = true ∧ q = (r.event_id, r.event_json) := by
  obtain ⟨r, hr, hq2⟩ := List.mem_map.1 hq
  obtain ⟨hrdb, hrp⟩ := List.mem_filter.1 hr
  exact ⟨r, hrdb, hrp, hq2.symm⟩

theorem fetch_single (db : List EventRecord) (ev : JValue) (h : state_is_open ev = .ok true) :
    fetch_instana_events db (.ok [ev]) = upsert_event db (event_id_of ev) ev := by
  simp [fetch_instana_events, filter_open, h]

theorem getStep_wf (part : String) (h : wfSegment part = true) (val : JValue) :
    ∃ o, getStep val part = .ok o := by
  unfold wfSegment at h
  unfold getStep
  rcases hs : pySplit part "[" with _ | ⟨p, rest⟩
  · rw [hs] at h
    simp at h
  · rcases rest with _ | ⟨idx, rest2⟩
    · exact ⟨_, rfl⟩
    · rcases rest2 with _ | ⟨z, rest3⟩
      · rw [hs] at h
        simp at h
        rcases hsub : pySubscr val p with _ | v1
        · exact ⟨none, by simp [hsub]⟩
        · obtain ⟨i, hi⟩ := Option.isSome_iff_exists.1 h
          exact ⟨pyIndexInt v1 i, by simp [hsub, hi]⟩
      · rw [hs] at h
        simp at h

theorem getNestedLoop_wf : ∀ (parts : List String) (val : JValue),
    (∀ part ∈ parts, wfSegment part = true) → ∃ o, getNestedLoop val parts = .ok o := by
  intro parts
  induction parts with
  | nil => intro val _; exact ⟨_, rfl⟩
  | cons p ps ih =>
      intro val h
      obtain ⟨o, ho⟩ := getStep_wf p (h p (List.mem_cons_self _ _)) val
      cases o with
      | none => exact ⟨none, by simp [getNestedLoop, ho]⟩
      | some v =>
          obtain ⟨o2, ho2⟩ := ih v (fun part hp => h part (List.mem_cons_of_mem _ hp))
          exact ⟨o2, by simp [getNestedLoop, ho, ho2]⟩

theorem get_nested_value_wf (p : String) (h : wfPath p = true) (data : JValue) :
    ∃ o, get_nested_value data p = .ok o := by
  unfold wfPath at h
  rw [List.all_eq_true] at h
  exact getNestedLoop_wf _ data (fun part hp => by simpa using h part hp)

theorem evalChain_spec (data : JValue) : ∀ keys : List String,
    (∀ k ∈ keys, ∃ o, get_nested_value data (pyStrip k) = .ok o) →
    evalChain data keys = .ok (chainSpecValue data keys) := by
  intro keys
  induction keys with
  | nil => intro _; rfl
  | cons k ks ih =>
      intro h
      obtain ⟨o, ho⟩ := h k (List.mem_cons_self _ _)
      cases o with
      | some v =>
          have hl : lookedUp data k = some v := by simp [lookedUp, ho]
          simp [evalChain, ho, chainSpecValue, hl]
      | none =>
          have hl : lookedUp data k = none := by simp [lookedUp, ho]
          simp only [evalChain, ho]
          rw [ih (fun k2 hk2 => h k2 (List.mem_cons_of_mem _ hk2))]
          simp [chainSpecValue, hl]

theorem listSplitFuel_ne_nil (sep : List Char) :
    ∀ (f : Nat) (l acc : List Char), listSplitFuel sep f l acc ≠ [] := by
  intro f
  induction f with
  | zero =>
      intro l acc
      cases l <;> simp [listSplitFuel]
  | succ f ih =>
      intro l acc
      cases l with
      | nil => simp [listSplitFuel]
      | cons c rest =>
          simp only [listSplitFuel]
          split
          · simp
          · exact ih rest (c :: acc)

theorem pySplit_ne_nil (s sep : String) : pySplit s sep ≠ [] := by
  unfold pySplit
  split
  · simp
  · intro h
    rw [List.map_eq_nil_iff] at h
    exact listSplitFuel_ne_nil _ _ _ _ h

theorem insertNestedGo_fresh : ∀ (ks : List String) (v : JValue), ks ≠ [] →
    ∃ m, insertNestedGo [] ks v = .ok m ∧ payloadGet m ks = some v := by
  intro ks
  induction ks with
  | nil => intro v h; exact absurd rfl h
  | cons k rest ih =>
      intro v _
      cases rest with
      | nil =>
          refine ⟨[(k, v)], ?_, ?_⟩
          · simp [insertNestedGo, setKey]
          · simp [payloadGet, lookupKV]
      | cons k2 rest2 =>
          obtain ⟨m2, hm2, hg2⟩ := ih v (by simp)
          refine ⟨[(k, .obj m2)], ?_, ?_⟩
          · simp [insertNestedGo, lookupKV, hm2, setKey]
          · simp [payloadGet, lookupKV, hg2]

theorem resolve_single (data : JValue) (f rule : String) :
    resolve_bhom_mapping data [(f, rule)] =
      match resolveRule data f rule with
      | .error e => .error e
      | .ok v => insert_nested_key [] f v := by
  unfold resolve_bhom_mapping
  rcases hr : resolveRule data f rule with e | v
  · simp [List.foldlM, hr]
  · rcases hi : insert_nested_key [] f v with e2 | m
    · simp [List.foldlM, hr, hi]
    · simp [List.foldlM, hr, hi]

theorem getD_mem {α : Type} (l : List α) (n : Nat) (d : α) (h : n < l.length) :
    l.getD n d ∈ l := by
  induction l generalizing n with
  | nil => simp at h
  | cons x xs ih =>
      cases n with
      | zero => simp [List.getD]
      | succ m =>
          simp only [List.getD_cons_succ]
          exact List.mem_cons_of_mem _ (ih m (by simpa using h))

-- ---------------- Claims ----------------

/-- C1 counterexample: the resolver is not total and a resolution failure is
not isolated.  A func:uppercase_state rule applied to an event without a
state field raises (AttributeError on None), and because the batch payloads
are resolved outside the per-batch try block, the whole run aborts: the
sibling event e2 of the same batch is left RECEIVED with no commit, even
though the downstream response would have been a success. -/
theorem c1_counterexample :
    resolve_bhom_mapping (JValue.obj []) [("status", "func:uppercase_state")] = .error () ∧
    process_events_in_batches [("status", "func:uppercase_state")] (.ok "token")
        (fun _ => .response 200 (.ok (.obj [("resourceId", .arr [.str "r1", .str "r2"])])))
        [⟨some "e1", .obj [], .RECEIVED⟩, ⟨some "e2", .obj [("state", .str "open")], .RECEIVED⟩]
        (select_pending
          [⟨some "e1", .obj [], .RECEIVED⟩, ⟨some "e2", .obj [("state", .str "open")], .RECEIVED⟩])
        8500 =
      ⟨[], [⟨some "e1", .obj [], .RECEIVED⟩, ⟨some "e2", .obj [("state", .str "open")], .RECEIVED⟩],
        true⟩ :=
  ⟨rfl, rfl⟩

/-- C1 (amended): when every event of the run resolves successfully, no
exception propagates past any batch boundary and every batch is submitted
and committed; but when some event fails to resolve (possible for a
registered func: transform on an unsuitable source value), the run aborts
with the store left as it was, so sibling events are neither submitted nor
reconciled (stated here for a single-batch run). -/
theorem c1_amended (cfg : List (String × String)) (tok : String) (resp : Nat → SubmitResult)
    (db : List EventRecord) (events : List (Option String × JValue)) :
    ((∀ p ∈ events, ∃ out, resolve_bhom_mapping p.2 cfg = .ok out) →
      (process_events_in_batches cfg (.ok tok) resp db events 8500).aborted = false ∧
      (process_events_in_batches cfg (.ok tok) resp db events 8500).commits.length =
        (chunks 8500 events).length) ∧
    ((∃ p ∈ events, resolve_bhom_mapping p.2 cfg = .error ()) → events.length ≤ 8500 →
      process_events_in_batches cfg (.ok tok) resp db events 8500 = ⟨[], db, true⟩) := by
  constructor
  · intro h
    exact run_batches_ok cfg (chunks 8500 events) resp db
      (fun b hbm p hp => h p (chunks_mem 8500 events b hbm p hp))
  · intro hex hlen
    have hne : events ≠ [] := by
      obtain ⟨p, hp, _⟩ := hex
      exact List.ne_nil_of_mem hp
    show run_batches cfg resp db (chunks 8500 events) = ⟨[], db, true⟩
    rw [chunks_single 8500 events hne hlen]
    have herr : process_one_batch cfg (resp 0) db events = .error () := by
      unfold process_one_batch
      rw [mapExcept_err hex]
    simp [run_batches, herr]

/-- C1 amended witness: a static-rule run completes without aborting, and a
run whose single event cannot be resolved aborts with the store unchanged. -/
theorem c1_amended_witness :
    (process_events_in_batches [("status", "static:OPEN")] (.ok "token") (fun _ => .exn)
        [⟨some "e1", .obj [], .RECEIVED⟩] [(some "e1", .obj [])] 8500).aborted = false ∧
    process_events_in_batches [("status", "func:uppercase_state")] (.ok "token") (fun _ => .exn)
        [⟨some "e1", .obj [], .RECEIVED⟩] [(some "e1", .obj [])] 8500 =
      ⟨[], [⟨some "e1", .obj [], .RECEIVED⟩], true⟩ := by
  constructor
  · refine ((c1_amended _ _ _ _ _).1 ?_).1
    intro p hp
    have hp2 : p = (some "e1", JValue.obj []) := by simpa using hp
    subst hp2
    exact ⟨_, rfl⟩
  · exact (c1_amended _ _ _ _ _).2 ⟨(some "e1", .obj []), by simp, rfl⟩ (by decide)

/-- C2: the freshness cache never hits for a token persisted by
_create_new_refresh_token.  The refresh operation persists the token under
the key refresh_token, while get_valid_refresh_token reads the key
json_web_token; at age 9 minutes (540 seconds, below the 600-second
threshold) the resulting KeyError is caught and a NEW token is fetched and
persisted, instead of the persisted token being returned unchanged as the
claim states. -/
theorem c2_persisted_token_never_reused :
    _create_new_refresh_token 0 (.ok (some "tokA")) =
      .ok ("tokA", [("time", "0"), ("refresh_token", "tokA")]) ∧
    get_valid_refresh_token (some [("time", "0"), ("refresh_token", "tokA")]) 540
        (.ok (some "tokB")) =
      .ok ("tokB", some [("time", "540"), ("refresh_token", "tokB")]) :=
  ⟨rfl, rfl⟩

/-- C3: reconciliation of an HTTP-200 batch is all-or-nothing.  With the
created-resource count n of the response body, the whole batch is marked
CREATED when n equals the batch size and FAILED otherwise; every record
matching a batch id receives that single shared status, so no partial split
is possible. -/
theorem c3_all_or_nothing (cfg : List (String × String)) (db : List EventRecord)
    (batch : List (Option String × JValue)) (resp_json : JValue) (n : Nat)
    (hres : ∀ p ∈ batch, ∃ out, resolve_bhom_mapping p.2 cfg = .ok out)
    (hn : resource_count resp_json = .ok n) :
    process_one_batch cfg (.response 200 (.ok resp_json)) db batch =
      .ok (mark_status db (batch.map Prod.fst)
        (if n = batch.length then .CREATED else .FAILED)) ∧
    ∀ r ∈ mark_status db (batch.map Prod.fst)
        (if n = batch.length then .CREATED else .FAILED),
      (batch.map Prod.fst).any (fun x => sqlEq r.event_id x) = true →
        r.status = (if n = batch.length then .CREATED else .FAILED) := by
  have hbs : batchStatus (.response 200 (.ok resp_json)) batch.length =
      (if n = batch.length then .CREATED else .FAILED) := by
    simp only [batchStatus, hn, if_pos rfl]
    by_cases h : n = batch.length <;> simp [h]
  constructor
  · rw [process_one_batch_ok cfg _ db batch hres, hbs]
  · exact mark_status_mem db _ _

/-- C3 witness: a 3-event batch whose response reports 2 created resources
is marked FAILED as a whole. -/
theorem c3_witness :
    process_one_batch [("status", "static:OPEN")]
        (.response 200 (.ok (.obj [("resourceId", .arr [.str "r1", .str "r2"])])))
        [⟨some "e1", .obj [], .RECEIVED⟩, ⟨some "e2", .obj [], .RECEIVED⟩,
          ⟨some "e3", .obj [], .RECEIVED⟩]
        [(some "e1", .obj []), (some "e2", .obj []), (some "e3", .obj [])] =
      .ok (mark_status
        [⟨some "e1", .obj [], .RECEIVED⟩, ⟨some "e2", .obj [], .RECEIVED⟩,
          ⟨some "e3", .obj [], .RECEIVED⟩]
        [some "e1", some "e2", some "e3"]
        (if 2 = 3 then .CREATED else .FAILED)) := by
  refine (c3_all_or_nothing _ _ _ (.obj [("resourceId", .arr [.str "r1", .str "r2"])]) 2
    ?_ rfl).1
  intro p hp
  rcases (by simpa using hp :
      p = (some "e1", JValue.obj []) ∨ p = (some "e2", JValue.obj []) ∨
      p = (some "e3", JValue.obj [])) with rfl | rfl | rfl <;> exact ⟨_, rfl⟩

/-- C8: a func: rule whose transform name is not in the registry resolves to
the empty string for every source payload, provided the reverse-mapped
source field is a well-formed path (outside that grammar the lookup itself
raises ValueError before the registry is consulted); the target key is
present in the output with value empty string. -/
theorem c8_unknown_transform (data : JValue) (f name rule : String)
    (h1 : pyStartsWith rule "static:" = false)
    (h2 : pyStartsWith rule "event_data:" = false)
    (h3 : pyStartsWith rule "func:" = true)
    (h4 : pySplit rule "func:" = ["", name])
    (h5 : CUSTOM_FUNCTIONS (pyStrip name) = none)
    (h6 : wfPath (bhom_mapping_reverse_lookup f) = true) :
    ∃ payload, resolve_bhom_mapping data [(f, rule)] = .ok payload ∧
      payloadGet payload (pySplit f ".") = some (.str "") := by
  obtain ⟨o, ho⟩ := get_nested_value_wf _ h6 data
  have hrule : resolveRule data f rule = .ok (.str "") := by
    unfold resolveRule
    rw [if_neg (by simp [h1]), if_neg (by simp [h2]), if_pos (by simp [h3]), ho, h4]
    simp [h5]
  obtain ⟨m, hm, hg⟩ := insertNestedGo_fresh (pySplit f ".") (.str "") (pySplit_ne_nil f ".")
  refine ⟨m, ?_, hg⟩
  rw [resolve_single data f rule, hrule]
  exact hm

/-- C8 witness: func:doesnotexist resolves to the empty string on a concrete
payload. -/
theorem c8_witness :
    ∃ payload, resolve_bhom_mapping (.obj [("state", .str "open")])
        [("status", "func:doesnotexist")] = .ok payload ∧
      payloadGet payload (pySplit "status" ".") = some (.str "") :=
  c8_unknown_transform (.obj [("state", .str "open")]) "status" "doesnotexist"
    "func:doesnotexist" rfl rfl rfl rfl rfl (by decide)

/-- C10: only an HTTP status of exactly 200 is treated as success; any other
code, 201 included, marks the whole batch FAILED. -/
theorem c10_only_200_success (cfg : List (String × String)) (db : List EventRecord)
    (batch : List (Option String × JValue)) (code : Nat) (body : Except Unit JValue)
    (hres : ∀ p ∈ batch, ∃ out, resolve_bhom_mapping p.2 cfg = .ok out)
    (hcode : code ≠ 200) :
    process_one_batch cfg (.response code body) db batch =
      .ok (mark_status db (batch.map Prod.fst) .FAILED) ∧
    ∀ r ∈ mark_status db (batch.map Prod.fst) .FAILED,
      (batch.map Prod.fst).any (fun x => sqlEq r.event_id x) = true → r.status = .FAILED := by
  constructor
  · rw [process_one_batch_ok cfg _ db batch hres, batchStatus_of_non200 _ _ _ hcode]
  · exact mark_status_mem db _ _

/-- C10 witness: a 201 response marks the batch FAILED. -/
theorem c10_witness :
    process_one_batch [("status", "static:OK")]
        (.response 201 (.ok (.obj [("resourceId", .arr [.str "r1"])])))
        [⟨some "e1", .obj [], .RECEIVED⟩] [(some "e1", .obj [])] =
      .ok (mark_status [⟨some "e1", .obj [], .RECEIVED⟩] [some "e1"] .FAILED) := by
  refine (c10_only_200_success _ _ _ 201 _ ?_ (by decide)).1
  intro p hp
  have hp2 : p = (some "e1", JValue.obj []) := by simpa using hp
  subst hp2
  exact ⟨_, rfl⟩

/-- C5: a batch whose submission fails (transport exception, non-200 status,
or unparsable body) is marked FAILED as a whole in its own committed
snapshot, no exception escapes the batch loop, every batch of the run is
still processed, and each successive batch is applied to the previously
committed store state (commit-per-batch ordering). -/
theorem c5_failed_batch_isolated (cfg : List (String × String)) (tok : String)
    (resp : Nat → SubmitResult) (db : List EventRecord)
    (events : List (Option String × JValue)) (k : Nat)
    (hres : ∀ p ∈ events, ∃ out, resolve_bhom_mapping p.2 cfg = .ok out)
    (hk : k < (chunks 8500 events).length)
    (hfail : submitFailed (resp k) = true) :
    (process_events_in_batches cfg (.ok tok) resp db events 8500).aborted = false ∧
    (process_events_in_batches cfg (.ok tok) resp db events 8500).commits.length =
      (chunks 8500 events).length ∧
    (∀ r ∈ (process_events_in_batches cfg (.ok tok) resp db events 8500).commits.getD k [],
      (((chunks 8500 events).getD k []).map Prod.fst).any (fun x => sqlEq r.event_id x) = true →
        r.status = .FAILED) ∧
    (∀ j, j + 1 < (chunks 8500 events).length →
      process_one_batch cfg (resp (j + 1))
          ((process_events_in_batches cfg (.ok tok) resp db events 8500).commits.getD j [])
          ((chunks 8500 events).getD (j + 1) []) =
        .ok ((process_events_in_batches cfg (.ok tok) resp db events 8500).commits.getD
          (j + 1) [])) := by
  have hb : ∀ b ∈ chunks 8500 events, ∀ p ∈ b, ∃ out, resolve_bhom_mapping p.2 cfg = .ok out :=
    fun b hbm p hp => hres p (chunks_mem 8500 events b hbm p hp)
  have hro := run_batches_ok cfg (chunks 8500 events) resp db hb
  refine ⟨hro.1, hro.2, ?_, ?_⟩
  · intro r hr hmatch
    have hchain := run_batches_chain cfg (chunks 8500 events) resp db k hb hk
    rw [batchStatus_of_failed _ _ hfail] at hchain
    have hr2 : r ∈ (run_batches cfg resp db (chunks 8500 events)).commits.getD k [] := hr
    rw [hchain] at hr2
    exact mark_status_mem _ _ _ r hr2 hmatch
  · intro j hj
    show process_one_batch cfg (resp (j + 1))
        ((run_batches cfg resp db (chunks 8500 events)).commits.getD j [])
        ((chunks 8500 events).getD (j + 1) []) =
      .ok ((run_batches cfg resp db (chunks 8500 events)).commits.getD (j + 1) [])
    have hchain := run_batches_chain cfg (chunks 8500 events) resp db (j + 1) hb hj
    have hbj : ∀ p ∈ (chunks 8500 events).getD (j + 1) [],
        ∃ out, resolve_bhom_mapping p.2 cfg = .ok out := by
      intro p hp
      exact hb _ (getD_mem _ _ _ hj) p hp
    rw [process_one_batch_ok cfg (resp (j + 1)) _ _ hbj, hchain]
    simp

/-- C5 witness: a single-batch run whose POST returns HTTP 500 does not
abort and commits its one batch. -/
theorem c5_witness :
    (process_events_in_batches [("status", "static:OK")] (.ok "token")
        (fun _ => .response 500 (.ok .null)) [⟨some "e1", .obj [], .RECEIVED⟩]
        [(some "e1", .obj [])] 8500).aborted = false ∧
    (process_events_in_batches [("status", "static:OK")] (.ok "token")
        (fun _ => .response 500 (.ok .null)) [⟨some "e1", .obj [], .RECEIVED⟩]
        [(some "e1", .obj [])] 8500).commits.length =
      (chunks 8500 [((some "e1" : Option String), JValue.obj [])]).length := by
  have h := c5_failed_batch_isolated [("status", "static:OK")] "token"
    (fun _ => .response 500 (.ok .null)) [⟨some "e1", .obj [], .RECEIVED⟩]
    [(some "e1", .obj [])] 0 ?_ (by decide) (by decide)
  · exact ⟨h.1, h.2.1⟩
  · intro p hp
    have hp2 : p = (some "e1", JValue.obj []) := by simpa using hp
    subst hp2
    exact ⟨_, rfl⟩

/-- C6: an event_data fallback chain evaluates its candidate paths left to
right and the written value is the first looked-up value that is present
and non-null, the empty string when no candidate yields one (stated through
the specification-side observer chainSpecValue built on List.findSome?);
the target key is always present in the output payload.  The candidate
paths are assumed well-formed (outside the bracket grammar the lookup
raises ValueError, see C1). -/
theorem c6_fallback_chain (data : JValue) (f chain rule : String)
    (h1 : pyStartsWith rule "static:" = false)
    (h2 : pyStartsWith rule "event_data:" = true)
    (h3 : pySplit rule "event_data:" = ["", chain])
    (hwf : ∀ k2 ∈ pySplit chain "|", wfPath (pyStrip k2) = true) :
    ∃ payload, resolve_bhom_mapping data [(f, rule)] = .ok payload ∧
      payloadGet payload (pySplit f ".") =
        some (chainSpecValue data (pySplit chain "|")) := by
  have hrule : resolveRule data f rule =
      .ok (chainSpecValue data (pySplit chain "|")) := by
    unfold resolveRule
    rw [if_neg (by simp [h1]), if_pos (by simp [h2]), h3]
    exact evalChain_spec data _
      (fun k2 hk2 => get_nested_value_wf (pyStrip k2) (hwf k2 hk2) data)
  obtain ⟨m, hm, hg⟩ := insertNestedGo_fresh (pySplit f ".")
    (chainSpecValue data (pySplit chain "|")) (pySplit_ne_nil f ".")
  refine ⟨m, ?_, hg⟩
  rw [resolve_single data f rule, hrule]
  exact hm

/-- C6 witness: for event_data:a.b|c.d with a.b absent and c.d present the
resolver writes the c.d value under the target key. -/
theorem c6_witness :
    ∃ payload, resolve_bhom_mapping (.obj [("c", .obj [("d", .str "x")])])
        [("out", "event_data:a.b|c.d")] = .ok payload ∧
      payloadGet payload (pySplit "out" ".") =
        some (chainSpecValue (.obj [("c", .obj [("d", .str "x")])]) (pySplit "a.b|c.d" "|")) :=
  c6_fallback_chain (.obj [("c", .obj [("d", .str "x")])]) "out" "a.b|c.d"
    "event_data:a.b|c.d" rfl rfl rfl (by decide)

/-- C7: ingestion is idempotent per event id.  Re-ingesting the same open
event is a no-op, a store holding at most one row with that id holds
exactly one row with it after ingestion, and when a row with the id already
exists (whatever its status and payload) the whole store is left untouched
by the upsert. -/
theorem c7_idempotent_ingestion (db : List EventRecord) (ev : JValue) (e : String)
    (hopen : state_is_open ev = .ok true)
    (hid : event_id_of ev = some e) :
    (fetch_instana_events (fetch_instana_events db (.ok [ev])) (.ok [ev]) =
      fetch_instana_events db (.ok [ev])) ∧
    (countId db e ≤ 1 → countId (fetch_instana_events db (.ok [ev])) e = 1) ∧
    (db.any (fun r => decide (r.event_id = some e)) = true →
      fetch_instana_events db (.ok [ev]) = db) := by
  have hf : ∀ d, fetch_instana_events d (.ok [ev]) = upsert_event d (some e) ev := by
    intro d
    rw [fetch_single d ev hopen, hid]
  refine ⟨?_, ?_, ?_⟩
  · cases hany : db.any (fun r => decide (r.event_id = some e)) with
    | true =>
        have h1 : upsert_event db (some e) ev = db := by simp [upsert_event, hany]
        rw [hf, hf, h1]
        exact h1
    | false =>
        have h1 : upsert_event db (some e) ev = db ++ [⟨some e, ev, .RECEIVED⟩] := by
          simp [upsert_event, hany]
        have h2 : (db ++ [(⟨some e, ev, .RECEIVED⟩ : EventRecord)]).any
            (fun r => decide (r.event_id = some e)) = true := by
          apply List.any_eq_true.2
          refine ⟨⟨some e, ev, .RECEIVED⟩, ?_, ?_⟩
          · simp
          · simp
        rw [hf, hf, h1]
        simp [upsert_event, h2]
  · intro hle
    rw [hf]
    cases hany : db.any (fun r => decide (r.event_id = some e)) with
    | true =>
        have h1 : upsert_event db (some e) ev = db := by simp [upsert_event, hany]
        rw [h1]
        obtain ⟨r0, hr0, hp0⟩ := List.any_eq_true.1 hany
        have hpos : 0 < db.countP (fun r => decide (r.event_id = some e)) :=
          List.countP_pos_iff.2 ⟨r0, hr0, hp0⟩
        unfold countId at hle ⊢
        omega
    | false =>
        have h1 : upsert_event db (some e) ev = db ++ [⟨some e, ev, .RECEIVED⟩] := by
          simp [upsert_event, hany]
        rw [h1]
        unfold countId
        rw [List.countP_append]
        have hz : db.countP (fun r => decide (r.event_id = some e)) = 0 := by
          rw [List.countP_eq_zero]
          intro r hr
          exact List.any_eq_false.1 hany r hr
        rw [hz]
        simp
  · intro hany
    rw [hf]
    simp [upsert_event, hany]

/-- C7 witness: ingesting the same open event twice into an empty store
leaves exactly one row, and a second ingestion is a no-op. -/
theorem c7_witness :
    (fetch_instana_events
        (fetch_instana_events [] (.ok [.obj [("eventId", .str "e1"), ("state", .str "open")]]))
        (.ok [.obj [("eventId", .str "e1"), ("state", .str "open")]]) =
      fetch_instana_events [] (.ok [.obj [("eventId", .str "e1"), ("state", .str "open")]])) ∧
    countId (fetch_instana_events []
        (.ok [.obj [("eventId", .str "e1"), ("state", .str "open")]])) "e1" = 1 :=
  ⟨(c7_idempotent_ingestion [] (.obj [("eventId", .str "e1"), ("state", .str "open")]) "e1"
      rfl rfl).1,
    (c7_idempotent_ingestion [] (.obj [("eventId", .str "e1"), ("state", .str "open")]) "e1"
      rfl rfl).2.1 (by decide)⟩

/-- C9: a failed or token-less refresh is fatal to the cycle.  The refresh
operation raises (RuntimeError) when the POST fails or the response has no
token; get_valid_refresh_token propagates that error both when no token
file exists and when the persisted token is stale; and a processing run
whose token acquisition raised aborts with no commit and the store
unchanged (the token is obtained before any batch work). -/
theorem c9_refresh_failure_fatal (now : Int) (rr : Except Unit (Option String))
    (hrr : rr = .error () ∨ rr = .ok none)
    (cfg : List (String × String)) (resp : Nat → SubmitResult) (db : List EventRecord)
    (hpend : select_pending db ≠ []) :
    _create_new_refresh_token now rr = .error () ∧
    get_valid_refresh_token none now rr = .error () ∧
    (∀ data last, strptimeInt ((lookupStr data "time").getD "") = some last →
      600 < now - last → get_valid_refresh_token (some data) now rr = .error ()) ∧
    process_all_events cfg ((get_valid_refresh_token none now rr).map (fun p => p.1)) resp db =
      ⟨[], db, true⟩ := by
  have hcreate : _create_new_refresh_token now rr = .error () := by
    rcases hrr with rfl | rfl <;> rfl
  have hvalid : get_valid_refresh_token none now rr = .error () := by
    show regenToken now rr = .error ()
    unfold regenToken
    rw [hcreate]
  refine ⟨hcreate, hvalid, ?_, ?_⟩
  · intro data last hl hgt
    have hunfold : get_valid_refresh_token (some data) now rr =
        (match strptimeInt ((lookupStr data "time").getD "") with
         | none => regenToken now rr
         | some last_time =>
            if 600 < now - last_time then regenToken now rr
            else
              match lookupStr data "json_web_token" with
              | some tok => .ok (tok, some data)
              | none => regenToken now rr) := rfl
    rw [hunfold]
    simp only [hl]
    rw [if_pos hgt]
    unfold regenToken
    rw [hcreate]
  · have htok : (get_valid_refresh_token none now rr).map (fun p => p.1) =
        (.error () : Except Unit String) := by
      rw [hvalid]
      rfl
    rcases hselp : select_pending db with _ | ⟨p, ps⟩
    · exact absurd hselp hpend
    · simp [process_all_events, hselp, process_events_in_batches, htok]

/-- C9 witness: with a failing refresh endpoint and one pending record, the
run aborts and the store is unchanged. -/
theorem c9_witness :
    process_all_events [] ((get_valid_refresh_token none 0 (.error ())).map (fun p => p.1))
        (fun _ => .exn) [⟨some "e1", .obj [], .RECEIVED⟩] =
      ⟨[], [⟨some "e1", .obj [], .RECEIVED⟩], true⟩ :=
  (c9_refresh_failure_fatal 0 (.error ()) (Or.inl rfl) [] (fun _ => .exn)
    [⟨some "e1", .obj [], .RECEIVED⟩] (List.cons_ne_nil _ _)).2.2.2

/-- C4: every run selects exactly the records whose status is RECEIVED or
FAILED; a CREATED record is never selected and is left untouched by the run
whenever no pending record shares its id (under the UNIQUE event_id
constraint no record does); and a FAILED record with a non-NULL id is
re-selected and, when every submission of the run succeeds with a matching
created count, ends the run with status CREATED. -/
theorem c4_selection_and_retry (cfg : List (String × String)) (tok : String)
    (resp : Nat → SubmitResult) (db : List EventRecord) :
    (∀ r ∈ db, isPending r.status = true → (r.event_id, r.event_json) ∈ select_pending db) ∧
    (∀ q ∈ select_pending db, ∃ r, r ∈ db ∧ isPending r.status = true ∧
      q = (r.event_id, r.event_json)) ∧
    (∀ r ∈ db, r.status = .CREATED → r ∉ db.filter (fun x => isPending x.status)) ∧
    (∀ i, (db.getD i dummyRec).status = .CREATED →
      (∀ r ∈ db, isPending r.status = true →
        sqlEq r.event_id ((db.getD i dummyRec).event_id) = false) →
      (process_all_events cfg (.ok tok) resp db).final.getD i dummyRec = db.getD i dummyRec) ∧
    (∀ i e, (db.getD i dummyRec).status = .FAILED →
      (db.getD i dummyRec).event_id = some e →
      (∀ p ∈ select_pending db, ∃ out, resolve_bhom_mapping p.2 cfg = .ok out) →
      (∀ k, k < (chunks 8500 (select_pending db)).length →
        ∃ j n, resp k = .response 200 (.ok j) ∧ resource_count j = .ok n ∧
          n = ((chunks 8500 (select_pending db)).getD k []).length) →
      (process_all_events cfg (.ok tok) resp db).final.getD i dummyRec =
        ⟨some e, (db.getD i dummyRec).event_json, .CREATED⟩) := by
  refine ⟨?_, ?_, ?_, ?_, ?_⟩
  · intro r hr hp
    exact select_pending_mem db r hr hp
  · intro q hq
    exact select_pending_mem_rev db q hq
  · intro r _ hc hmem
    have hx := (List.mem_filter.1 hmem).2
    rw [hc] at hx
    simp [isPending] at hx
  · intro i _hc hnop
    rcases hsel : select_pending db with _ | ⟨p, ps⟩
    · simp [process_all_events, hsel]
    · simp only [process_all_events, hsel]
      show (run_batches cfg resp db (chunks 8500 (p :: ps))).final.getD i dummyRec =
        db.getD i dummyRec
      apply run_batches_untouch
      intro b hb id hid
      obtain ⟨q, hq, hq2⟩ := List.mem_map.1 hid
      have hql : q ∈ p :: ps := chunks_mem 8500 (p :: ps) b hb q hq
      rw [← hsel] at hql
      obtain ⟨r2, hr2db, hr2p, hq3⟩ := select_pending_mem_rev db q hql
      have hzero := hnop r2 hr2db hr2p
      rw [← hq2, hq3]
      show sqlEq ((db.getD i dummyRec).event_id) r2.event_id = false
      rw [sqlEq_symm]
      exact hzero
  · intro i e hfail hid hres hsucc
    have hipend : isPending (db.getD i dummyRec).status = true := by rw [hfail]; rfl
    have hib : i < db.length := by
      by_contra hge
      push_neg at hge
      rw [List.getD_eq_default _ _ hge] at hfail
      exact Status.noConfusion hfail
    have hcell : db.getD i dummyRec ∈ db := getD_mem db i dummyRec hib
    have hpair : ((db.getD i dummyRec).event_id, (db.getD i dummyRec).event_json) ∈
        select_pending db := select_pending_mem db _ hcell hipend
    rw [hid] at hpair
    rcases hsel : select_pending db with _ | ⟨p, ps⟩
    · rw [hsel] at hpair
      simp at hpair
    · rw [hsel] at hpair hres hsucc
      simp only [process_all_events, hsel]
      show (run_batches cfg resp db (chunks 8500 (p :: ps))).final.getD i dummyRec =
        ⟨some e, (db.getD i dummyRec).event_json, .CREATED⟩
      refine run_batches_created cfg (chunks 8500 (p :: ps)) resp db i e ?_ hsucc hid ?_
      · intro b hb p2 hp2
        exact hres p2 (chunks_mem 8500 (p :: ps) b hb p2 hp2)
      · obtain ⟨b, hbmem, hpb⟩ := chunks_exists 8500 (by decide) (p :: ps) _ hpair
        refine ⟨b, hbmem, ?_⟩
        apply List.any_eq_true.2
        refine ⟨some e, ?_, sqlEq_some_refl e⟩
        exact List.mem_map.2 ⟨((some e : Option String), (db.getD i dummyRec).event_json),
          hpb, rfl⟩

/-- C4 witness: in a store with a FAILED record e1 and a CREATED record e2,
a fully successful run re-selects e1 (its selected pair is produced by the
query), leaves e2 untouched, and moves e1 to CREATED. -/
theorem c4_witness :
    ((some "e1", JValue.obj []) ∈ select_pending
      [⟨some "e1", .obj [], .FAILED⟩, ⟨some "e2", .obj [], .CREATED⟩]) ∧
    (process_all_events [("status", "static:OK")] (.ok "token")
        (fun _ => .response 200 (.ok (.obj [("resourceId", .arr [.str "r1"])])))
        [⟨some "e1", .obj [], .FAILED⟩, ⟨some "e2", .obj [], .CREATED⟩]).final.getD 1 dummyRec =
      ⟨some "e2", .obj [], .CREATED⟩ ∧
    (process_all_events [("status", "static:OK")] (.ok "token")
        (fun _ => .response 200 (.ok (.obj [("resourceId", .arr [.str "r1"])])))
        [⟨some "e1", .obj [], .FAILED⟩, ⟨some "e2", .obj [], .CREATED⟩]).final.getD 0 dummyRec =
      ⟨some "e1", .obj [], .CREATED⟩ := by
  have h := c4_selection_and_retry [("status", "static:OK")] "token"
    (fun _ => .response 200 (.ok (.obj [("resourceId", .arr [.str "r1"])])))
    [⟨some "e1", .obj [], .FAILED⟩, ⟨some "e2", .obj [], .CREATED⟩]
  refine ⟨?_, ?_, ?_⟩
  · exact h.1 ⟨some "e1", .obj [], .FAILED⟩ (List.mem_cons_self _ _) rfl
  · refine h.2.2.2.1 1 rfl ?_
    intro r hr hp
    rcases (by simpa using hr :
        r = (⟨some "e1", .obj [], .FAILED⟩ : EventRecord) ∨
        r = (⟨some "e2", .obj [], .CREATED⟩ : EventRecord)) with rfl | rfl
    · rfl
    · exact absurd hp (by decide)
  · refine h.2.2.2.2 0 "e1" rfl rfl ?_ ?_
    · intro p hp
      have hsel1 : select_pending
          [(⟨some "e1", .obj [], .FAILED⟩ : EventRecord),
            ⟨some "e2", .obj [], .CREATED⟩] = [(some "e1", JValue.obj [])] := rfl
      rw [hsel1] at hp
      have hp2 : p = (some "e1", JValue.obj []) := by simpa using hp
      subst hp2
      exact ⟨_, rfl⟩
    · intro k hk
      have hk0 : k = 0 := by
        have hlen1 : (chunks 8500 (select_pending
            [(⟨some "e1", .obj [], .FAILED⟩ : EventRecord),
              ⟨some "e2", .obj [], .CREATED⟩])).length = 1 := rfl
        rw [hlen1] at hk
        omega
      subst hk0
      exact ⟨.obj [("resourceId", .arr [.str "r1"])], 1, rfl, rfl, rfl⟩
